import Mathlib

/-!
# Verification of the Cameca PeakSight binary parser

A shallow embedding of `src/lib/parsers/cameca.py`, the reader for the
proprietary binary files written by the Cameca PeakSight software, together
with theorems settling the specification's claims against it.

Modelling conventions:
* A Python `bytes` buffer is a `List Nat` (each entry a byte value `< 256`
  in real buffers; the decoders are total over arbitrary naturals by
  reducing modulo 256 where the source reads raw byte values).
* A `BytesIO` stream is the pair of the underlying buffer and the current
  position; parser functions take the buffer and a position and return the
  produced value together with the new position.
* Python exceptions become the `PyErr` error type of an `Except` result:
  `struct.error` for a short `struct.unpack` read, the `IOError` /
  `RuntimeError` raised explicitly by the source, the `ValueError` of
  `np.fromstring` on a misaligned byte count, the `KeyError` of a lookup
  table miss, and the `OverflowError` of an out-of-range `datetime`.
* Text produced by `.decode()` is validated as strict UTF-8 (a invalid
  sequence raises `UnicodeDecodeError`, as in CPython) and then kept as
  its raw byte sequence; text produced by Python's `str()` applied to a
  bytes object is rendered by `pyBytesStr`, a model of CPython's `repr`
  for `bytes`.
* `float32` fields are kept as their raw 32-bit little-endian bit
  patterns; no claim depends on their numeric interpretation.
-/

namespace Cameca

/-- A byte buffer: the contents of a Python `bytes` object. -/
abbrev Bytes := List Nat

/-- The byte values of an ASCII string literal (used for the fixed tags and
lookup-table names appearing in the source). -/
def ascii (s : String) : Bytes := s.data.map Char.toNat

/-- The Python exceptions the parser can raise, with the data the source
interpolates into their messages. -/
inductive PyErr where
  /-- `IOError` from `_read_the_header`: the 3-byte tag is not `fxs`. -/
  | badMagic : PyErr
  /-- `KeyError` from `to_type`: the file-type byte is absent from `value_map`. -/
  | unknownCode : PyErr
  /-- `IOError` from `CamecaWDS.__init__`: the header type code is not 6;
  carries the file-type name interpolated into the message. -/
  | wrongFileType : Bytes → PyErr
  /-- `RuntimeError` from `CamecaWDS.__init__`: the WDS struct discriminator
  is not 11; carries the value read and `fbio.tell()` at raise time. -/
  | unexpectedWDSStruct : Int → Nat → PyErr
  /-- `IOError` from `WDSDatasetItem.__init__`: the item discriminator is not
  0x11; carries the value read. -/
  | unexpectedItemStruct : Int → PyErr
  /-- `struct.error`: `struct.unpack` received fewer bytes than its format. -/
  | structError : PyErr
  /-- `ValueError` from `np.fromstring`: byte count not a multiple of 4. -/
  | valueError : PyErr
  /-- `OverflowError` from `datetime` addition past year 9999. -/
  | dateOverflow : PyErr
  /-- `UnicodeDecodeError` from `bytes.decode()` on invalid UTF-8. -/
  | unicodeDecodeError : PyErr
deriving DecidableEq

/-- Decidable equality for `Except` results, so concrete parser outcomes
can be settled by `decide`. -/
instance instDecEqExcept {e a : Type _} [DecidableEq e] [DecidableEq a] :
    DecidableEq (Except e a) := fun x y =>
  match x, y with
  | .ok u, .ok v =>
    if h : u = v then isTrue (by rw [h]) else isFalse (fun hc => h (Except.ok.inj hc))
  | .error u, .error v =>
    if h : u = v then isTrue (by rw [h]) else isFalse (fun hc => h (Except.error.inj hc))
  | .ok _, .error _ => isFalse (fun hc => Except.noConfusion hc)
  | .error _, .ok _ => isFalse (fun hc => Except.noConfusion hc)

/-- `fbio.read(n)` of a `BytesIO` at position `p`: a negative `n` reads all
remaining bytes, otherwise up to `n` bytes are returned; the position
advances by the number of bytes actually returned and no error is possible. -/
def pyRead (bs : Bytes) (p : Nat) (n : Int) : Bytes × Nat :=
  let r := if n < 0 then bs.drop p else (bs.drop p).take n.toNat
  (r, p + r.length)

/-- `struct.unpack(fmt, fbio.read(n))` for a format of size `n`: Python's
`read` returns what is available and `unpack` raises `struct.error` when
that is fewer than `n` bytes. -/
def readN (bs : Bytes) (p n : Nat) : Except PyErr (Bytes × Nat) :=
  let r := pyRead bs p (n : Int)
  if r.1.length = n then .ok r else .error .structError

/-- Little-endian accumulation of a byte list into a natural number. -/
def leNat (b : Bytes) : Nat := b.foldr (fun x acc => x % 256 + 256 * acc) 0

/-- `struct` code `B`: one unsigned byte. -/
def u8 (b : Bytes) : Nat := leNat (b.take 1)

/-- `struct` code `<i`: 4 bytes as a signed little-endian 32-bit integer. -/
def i32le (b : Bytes) : Int :=
  let u := leNat (b.take 4)
  if u < 2 ^ 31 then (u : Int) else (u : Int) - 2 ^ 32

/-- `struct` code `<f`: 4 bytes kept as the raw little-endian 32-bit
pattern of the float. -/
def u32le (b : Bytes) : Nat := leNat (b.take 4)

/-- `struct` code `<Q`: 8 bytes as an unsigned little-endian 64-bit integer. -/
def u64le (b : Bytes) : Nat := leNat (b.take 8)

/-- Lower-case hexadecimal digit, for the `\xhh` escapes of a bytes repr. -/
def hexDigit (n : Nat) : Nat := if n < 10 then 48 + n else 87 + n

/-- CPython's rendering of a single byte inside a bytes repr delimited by
quote character `q`: backslash and the delimiter are escaped, tab, newline
and carriage return use their two-character escapes, other printable ASCII
bytes stand for themselves, and everything else becomes `\xhh`. -/
def reprByte (q c : Nat) : Bytes :=
  if c = 92 then [92, 92]
  else if c = q then [92, q]
  else if c = 9 then [92, 116]
  else if c = 10 then [92, 110]
  else if c = 13 then [92, 114]
  else if 32 ≤ c ∧ c ≤ 126 then [c]
  else [92, 120, hexDigit (c / 16), hexDigit (c % 16)]

/-- Python `str(b)` for a bytes object `b` (identical to `repr(b)`): a `b`
prefix, then the bytes between quotes — single quotes unless the content
contains a single quote but no double quote, in which case double quotes. -/
def pyBytesStr (b : Bytes) : Bytes :=
  let q := if 39 ∈ b ∧ ¬ 34 ∈ b then 34 else 39
  [98, q] ++ b.foldr (fun c acc => reprByte q c ++ acc) [] ++ [q]

/-- Strict UTF-8 validity of a byte sequence, as CPython's default
`bytes.decode()` checks it: ASCII bytes stand alone; two-byte sequences
start at `C2..DF` (so no overlongs); three-byte sequences start at
`E0..EF` with the `E0` overlong and `ED` surrogate ranges excluded;
four-byte sequences start at `F0..F4` with the `F0` overlong and `F4`
above-`U+10FFFF` ranges excluded; every continuation byte is `80..BF`;
anything else — including a truncated sequence — is invalid. -/
def utf8Valid : Bytes → Bool
  | [] => true
  | c :: rest =>
    if c < 0x80 then utf8Valid rest
    else if c < 0xC2 then false
    else if c < 0xE0 then
      match rest with
      | c1 :: rest1 => (0x80 ≤ c1 && c1 < 0xC0) && utf8Valid rest1
      | _ => false
    else if c < 0xF0 then
      match rest with
      | c1 :: c2 :: rest1 =>
        (if c = 0xE0 then 0xA0 ≤ c1 && c1 < 0xC0
         else if c = 0xED then 0x80 ≤ c1 && c1 < 0xA0
         else 0x80 ≤ c1 && c1 < 0xC0)
          && (0x80 ≤ c2 && c2 < 0xC0) && utf8Valid rest1
      | _ => false
    else if c < 0xF5 then
      match rest with
      | c1 :: c2 :: c3 :: rest1 =>
        (if c = 0xF0 then 0x90 ≤ c1 && c1 < 0xC0
         else if c = 0xF4 then 0x80 ≤ c1 && c1 < 0x90
         else 0x80 ≤ c1 && c1 < 0xC0)
          && (0x80 ≤ c2 && c2 < 0xC0) && (0x80 ≤ c3 && c3 < 0xC0)
          && utf8Valid rest1
      | _ => false
    else false

/-- `bytes.decode()` with the default strict UTF-8 codec: the text (kept
as its raw bytes) when the sequence is valid, `UnicodeDecodeError`
otherwise. -/
def pyDecode (b : Bytes) : Except PyErr Bytes :=
  if utf8Valid b then .ok b else .error .unicodeDecodeError

/-- `read_c_hash_string(stream)` from the source: unpack a little-endian
signed 32-bit length, `read` that many bytes (Python's `read` returns all
remaining bytes for a negative argument and truncates silently at EOF),
and return `str(...)` of the bytes object read. -/
def read_c_hash_string (bs : Bytes) (p : Nat) : Except PyErr (Bytes × Nat) := do
  let (lb, p) ← readN bs p 4
  let n := i32le lb
  let (sb, p) := pyRead bs p n
  .ok (pyBytesStr sb, p)

/-! ## Windows FILETIME to `datetime` conversion

The source computes `datetime(1601, 1, 1) + timedelta(microseconds=filetime / 10)`.
Python's `/` is IEEE-754 binary64 division with round-to-nearest,
ties-to-even, and `timedelta` then rounds its float `microseconds`
argument to an integer microsecond count, again half-to-even (CPython's
`round`).  `divTicks` models this composition exactly over the u64 tick
domain: the quotient `ft / 10` is rounded to the binary64 grid of its
binade — spacing `2 ^ (e - 52)` where `e` is the floor of its base-2
logarithm — with ties to even, and when that grid is finer than one
microsecond the resulting dyadic value is rounded once more, half to
even, by the `timedelta` constructor.  The `datetime` addition itself
follows CPython: the day count is added to the proleptic-Gregorian
ordinal of 1601-01-01 and the result must not pass the ordinal of
9999-12-31, else `OverflowError`. -/

/-- Division rounded to the nearest integer with ties to even — the
rounding IEEE-754 applies to a real quotient landing between
representable values, and the rounding CPython's `round` applies to a
float `microseconds` argument of `timedelta`. -/
def rheDiv (n d : Nat) : Nat :=
  let q := n / d
  let r := n % d
  if 2 * r < d then q
  else if d < 2 * r then q + 1
  else if q % 2 = 0 then q else q + 1

/-- Fuelled floor of the base-2 logarithm (`floorLog2 fuel v = 0` for
`v < 2`); 128 units of fuel cover every value arising from a u64 tick
count. -/
def floorLog2 : Nat → Nat → Nat
  | 0, _ => 0
  | fuel + 1, v => if v < 2 then 0 else floorLog2 fuel (v / 2) + 1

/-- The integer microsecond count `timedelta(microseconds=ft / 10)` ends
up holding, under binary64 semantics.  With `e` the floor of the base-2
logarithm of `ft / 10`: when `2 ^ 52 ≤ ft / 10` the binary64 quotient is
the integer multiple of `2 ^ (e - 52)` nearest to `ft / 10` (ties to
even) and `timedelta` keeps it unchanged; otherwise the binary64 quotient
is a dyadic with denominator `2 ^ (52 - e)` and `timedelta` rounds it,
half to even, to whole microseconds.  (For `ft < 10` the computed `e`
collapses to 0 instead of the true negative exponent; the resulting grid
is coarser than the true one but still finer than the distance of
`ft / 10` to the nearest rounding boundary, so the microsecond count is
unchanged on those ten inputs.)  Checked against CPython's
`timedelta(microseconds=ft / 10)` across the u64 range. -/
def divTicks (ft : Nat) : Nat :=
  let e := floorLog2 128 (ft / 10)
  if 52 ≤ e then rheDiv ft (10 * 2 ^ (e - 52)) * 2 ^ (e - 52)
  else rheDiv (rheDiv (ft * 2 ^ (52 - e)) 10) (2 ^ (52 - e))

/-- A Python `datetime.datetime` value. -/
structure PyDateTime where
  year : Nat
  month : Nat
  day : Nat
  hour : Nat
  minute : Nat
  second : Nat
  microsecond : Nat
deriving DecidableEq

/-- Days before January 1 of year `y` in the proleptic Gregorian calendar
(so `daysBeforeYear y + 1` is Python's `date(y, 1, 1).toordinal()`). -/
def daysBeforeYear (y : Nat) : Nat :=
  let n := y - 1
  n * 365 + n / 4 - n / 100 + n / 400

/-- Gregorian leap-year test. -/
def isLeap (y : Nat) : Bool := y % 4 = 0 && (y % 100 != 0 || y % 400 = 0)

/-- Days in year `y` before the first of month `m` (1-based). -/
def daysBeforeMonth (y m : Nat) : Nat :=
  [0, 31, 59, 90, 120, 151, 181, 212, 243, 273, 304, 334].getD (m - 1) 0
    + (if 2 < m ∧ isLeap y then 1 else 0)

/-- The month containing 0-based day-of-year `doy` of year `y`. -/
def monthFromDoy (y doy : Nat) : Nat :=
  if daysBeforeMonth y 12 ≤ doy then 12
  else if daysBeforeMonth y 11 ≤ doy then 11
  else if daysBeforeMonth y 10 ≤ doy then 10
  else if daysBeforeMonth y 9 ≤ doy then 9
  else if daysBeforeMonth y 8 ≤ doy then 8
  else if daysBeforeMonth y 7 ≤ doy then 7
  else if daysBeforeMonth y 6 ≤ doy then 6
  else if daysBeforeMonth y 5 ≤ doy then 5
  else if daysBeforeMonth y 4 ≤ doy then 4
  else if daysBeforeMonth y 3 ≤ doy then 3
  else if daysBeforeMonth y 2 ≤ doy then 2
  else 1

/-- CPython's `date.fromordinal`: proleptic-Gregorian date of ordinal `nn`
(ordinal 1 is 0001-01-01). -/
def dateFromOrdinal (nn : Nat) : Nat × Nat × Nat :=
  let n := nn - 1
  let n400 := n / 146097
  let n1c := n % 146097
  let n100 := n1c / 36524
  let n4c := n1c % 36524
  let n4 := n4c / 1461
  let n1y := n4c % 1461
  let n1 := n1y / 365
  let doy := n1y % 365
  let year := n400 * 400 + 1 + n100 * 100 + n4 * 4 + n1
  if n1 = 4 ∨ n100 = 4 then (year - 1, 12, 31)
  else
    let m := monthFromDoy year doy
    (year, m, doy - daysBeforeMonth year m + 1)

/-- `date(1601, 1, 1).toordinal()`. -/
def ord1601 : Nat := daysBeforeYear 1601 + 1

/-- `date(9999, 12, 31).toordinal()`, Python's `datetime.max` ordinal. -/
def maxOrdinal : Nat := daysBeforeYear 10000

/-- `datetime(1601, 1, 1) + timedelta(microseconds=usec)`: split the
microseconds into days and time of day, add the days to the ordinal of
1601-01-01, and fail with `OverflowError` past `datetime.max`. -/
def datetime1601Plus (usec : Nat) : Except PyErr PyDateTime :=
  let days := usec / 86400000000
  let rem := usec % 86400000000
  let ord := ord1601 + days
  if maxOrdinal < ord then .error .dateOverflow
  else
    let ymd := dateFromOrdinal ord
    .ok ⟨ymd.1, ymd.2.1, ymd.2.2, rem / 3600000000, rem / 60000000 % 60,
         rem / 1000000 % 60, rem % 1000000⟩

/-- `filetime_to_datetime(filetime)` from the source:
`datetime(1601, 1, 1) + timedelta(microseconds=filetime / 10)`. -/
def filetime_to_datetime (ft : Nat) : Except PyErr PyDateTime :=
  datetime1601Plus (divTicks ft)

/-! ## The common file header -/

/-- `CamecaBase.value_map`: file-type code to file-type name. -/
def value_map (k : Nat) : Option Bytes :=
  if k = 1 then some (ascii "WDS setup")
  else if k = 2 then some (ascii "Image/maping setup")
  else if k = 3 then some (ascii "Calibration setup")
  else if k = 4 then some (ascii "Quanti setup")
  else if k = 5 then some (ascii "unknown")
  else if k = 6 then some (ascii "WDS results")
  else if k = 7 then some (ascii "Image/maping results")
  else if k = 8 then some (ascii "Calibration results")
  else if k = 9 then some (ascii "Quanti results")
  else if k = 10 then some (ascii "Peak overlap table")
  else none

/-- The attributes `_read_the_header` sets on the object. -/
structure CHeader where
  cameca_bin_file_type : Nat
  file_type : Bytes
  file_version : Int
  file_comment : Bytes
  changes : List (PyDateTime × Bytes)
deriving DecidableEq

/-- The `for i in range(n_changes)` loop of `_read_the_header`: each
iteration unpacks `<Qi` from 12 bytes, reads and UTF-8-decodes the change
comment of the given length, and converts the FILETIME. -/
def readChanges (bs : Bytes) : Nat → Nat → Except PyErr (List (PyDateTime × Bytes) × Nat)
  | p, 0 => .ok ([], p)
  | p, n + 1 => do
    let (b12, p) ← readN bs p 12
    let ft := u64le (b12.take 8)
    let clen := i32le (b12.drop 8)
    let (cb, p) := pyRead bs p clen
    let comment ← pyDecode cb
    let dt ← filetime_to_datetime ft
    let (rest, p) ← readChanges bs p n
    .ok ((dt, comment) :: rest, p)

/-- `CamecaBase._read_the_header(fbio)`: seek to offset 0, unpack
`<B3sii` from 12 bytes, check the `fxs` tag, resolve the type name, read
and UTF-8-decode the comment, skip the 28-byte reserved region, and read
the change log (each change comment also decoded).  The incoming position
`p0` is discarded by the initial `fbio.seek(0)`. -/
def read_the_header (bs : Bytes) (_p0 : Nat) : Except PyErr (CHeader × Nat) := do
  let p := 0
  let (h12, p) ← readN bs p 12
  let a := u8 h12
  let tag := (h12.drop 1).take 3
  let c := i32le ((h12.drop 4).take 4)
  let d := i32le (h12.drop 8)
  if tag ≠ ascii "fxs" then .error .badMagic
  else
    match value_map a with
    | none => .error .unknownCode
    | some tname => do
      let (cmtb, p) := pyRead bs p d
      let cmt ← pyDecode cmtb
      let p := p + 0x1C
      let (ncb, p) ← readN bs p 4
      let n := i32le ncb
      let (chs, p) ← readChanges bs p n.toNat
      .ok (⟨a, tname, c, cmt, chs⟩, p)

/-! ## Measurement records -/

/-- One measurement sub-record as assembled by `WDSDatasetItem.read_item`.
Fields unpacked with `struct` code `i` are signed integers; fields
unpacked with code `f` hold their raw 32-bit patterns. -/
structure MeasurementRec where
  struct_type : Int
  unk_type : Int
  atom_number : Int
  line : Int
  unknw3 : Int
  spect_no : Int
  spect_name : Int
  twoD : Nat
  K : Nat
  unkwn4 : Int
  kV : Nat
  current : Nat
  peak_pos : Int
  bias : Int
  gain : Int
  dtime : Int
  blin : Int
  window : Int
  mode : Int
  wds_start_pos : Int
  steps : Int
  step_size : Nat
  dwell_time : Nat
  beam_size : Int
  data_array_size : Int
  data : List Nat
deriving DecidableEq

/-- `np.fromstring(raw, dtype=np.float32)` after the length check: the raw
bytes grouped into little-endian 32-bit words (the bit patterns of the
float entries). -/
def u32chunks : Bytes → List Nat
  | b0 :: b1 :: b2 :: b3 :: rest => u32le [b0, b1, b2, b3] :: u32chunks rest
  | _ => []

/-- `WDSDatasetItem.read_item(fbio)`: unpack `<7i2fi2f7i` from 76 bytes,
skip 24, unpack `<2i2f2i` from 24 bytes, `read` `data_array_size` bytes
and reinterpret them as float32 entries (`np.fromstring` raises
`ValueError` when the byte count read is not a multiple of 4; Python's
`read` silently truncates at EOF and reads everything for a negative
size), then skip 124 bytes. -/
def read_item (bs : Bytes) (p : Nat) : Except PyErr (MeasurementRec × Nat) := do
  let (b76, p) ← readN bs p 76
  let p := p + 24
  let (b24, p) ← readN bs p 24
  let size := i32le ((b24.drop 20).take 4)
  let (raw, p) := pyRead bs p size
  if raw.length % 4 ≠ 0 then .error .valueError
  else
    let p := p + 124
    .ok ({ struct_type := i32le (b76.take 4)
           unk_type := i32le ((b76.drop 4).take 4)
           atom_number := i32le ((b76.drop 8).take 4)
           line := i32le ((b76.drop 12).take 4)
           unknw3 := i32le ((b76.drop 16).take 4)
           spect_no := i32le ((b76.drop 20).take 4)
           spect_name := i32le ((b76.drop 24).take 4)
           twoD := u32le ((b76.drop 28).take 4)
           K := u32le ((b76.drop 32).take 4)
           unkwn4 := i32le ((b76.drop 36).take 4)
           kV := u32le ((b76.drop 40).take 4)
           current := u32le ((b76.drop 44).take 4)
           peak_pos := i32le ((b76.drop 48).take 4)
           bias := i32le ((b76.drop 52).take 4)
           gain := i32le ((b76.drop 56).take 4)
           dtime := i32le ((b76.drop 60).take 4)
           blin := i32le ((b76.drop 64).take 4)
           window := i32le ((b76.drop 68).take 4)
           mode := i32le ((b76.drop 72).take 4)
           wds_start_pos := i32le (b24.take 4)
           steps := i32le ((b24.drop 4).take 4)
           step_size := u32le ((b24.drop 8).take 4)
           dwell_time := u32le ((b24.drop 12).take 4)
           beam_size := i32le ((b24.drop 16).take 4)
           data_array_size := size
           data := u32chunks raw }, p)

/-- The `for i in range(n_of_items)` loop over measurement sub-records. -/
def readItems (bs : Bytes) : Nat → Nat → Except PyErr (List MeasurementRec × Nat)
  | p, 0 => .ok ([], p)
  | p, n + 1 => do
    let (r, p) ← read_item bs p
    let (rest, p) ← readItems bs p n
    .ok (r :: rest, p)

/-! ## Dataset items -/

/-- The `metadata` dictionary of a `WDSDatasetItem`. -/
structure ItemMeta where
  x_axis : Int
  y_axis : Int
  beam_x : Int
  beam_y : Int
  resolution_x : Nat
  resolution_y : Nat
  width : Int
  height : Int
  accumulation_times : Int
  dwell_time : Nat
  z_axis : List Int
  condition_file : Bytes
deriving DecidableEq

/-- One parsed `WDSDatasetItem`. -/
structure WDSItem where
  metadata : ItemMeta
  data : List MeasurementRec
  name : Bytes
deriving DecidableEq

/-- `WDSDatasetItem.__init__(fbio)`: check the 0x11 discriminator, skip 4
bytes, unpack `<4i2f2i` from 32 bytes, skip 12, unpack `<if` from 8
bytes, skip 4, unpack `<49i` from 196 bytes, skip 40, read the
`condition_file` string, read the sub-record count and that many
measurement records, read the `name` string, and skip 316 bytes. -/
def readWDSDatasetItem (bs : Bytes) (p : Nat) : Except PyErr (WDSItem × Nat) := do
  let (b4, p) ← readN bs p 4
  let st := i32le b4
  if st ≠ 0x11 then .error (.unexpectedItemStruct st)
  else
    let p := p + 4
    let (b32, p) ← readN bs p 32
    let p := p + 12
    let (b8, p) ← readN bs p 8
    let p := p + 4
    let (zb, p) ← readN bs p 196
    let p := p + 40
    let (cond, p) ← read_c_hash_string bs p
    let (nb, p) ← readN bs p 4
    let n := i32le nb
    let (items, p) ← readItems bs p n.toNat
    let (name, p) ← read_c_hash_string bs p
    let p := p + 316
    .ok (⟨{ x_axis := i32le (b32.take 4)
            y_axis := i32le ((b32.drop 4).take 4)
            beam_x := i32le ((b32.drop 8).take 4)
            beam_y := i32le ((b32.drop 12).take 4)
            resolution_x := u32le ((b32.drop 16).take 4)
            resolution_y := u32le ((b32.drop 20).take 4)
            width := i32le ((b32.drop 24).take 4)
            height := i32le ((b32.drop 28).take 4)
            accumulation_times := i32le (b8.take 4)
            dwell_time := u32le (b8.drop 4)
            z_axis := (List.range 49).map fun k => i32le ((zb.drop (4 * k)).take 4)
            condition_file := cond }, items, name⟩, p)

/-! ## The WDS file parser -/

/-- The attributes `CamecaWDS.__init__` sets (file-system attributes such
as `filename` and `file_basename` aside, which do not depend on the
buffer). -/
structure WDSFileM where
  header : CHeader
  number_of_items : Int
  datasets : List WDSItem
deriving DecidableEq

/-- The `for i in range(self.number_of_items)` loop over dataset items. -/
def readDatasets (bs : Bytes) : Nat → Nat → Except PyErr (List WDSItem × Nat)
  | p, 0 => .ok ([], p)
  | p, n + 1 => do
    let (d, p) ← readWDSDatasetItem bs p
    let (rest, p) ← readDatasets bs p n
    .ok (d :: rest, p)

/-- `CamecaWDS.__init__` on an in-memory buffer: read the header, require
type code 6, unpack `<i20si` from a single 28-byte read (discriminator,
20 reserved bytes and item count together), require discriminator 11
(the error carries the value and `fbio.tell()`, which by then is past the
whole 28-byte block), then read the dataset items. -/
def CamecaWDSparse (bs : Bytes) : Except PyErr WDSFileM := do
  let (hdr, p) ← read_the_header bs 0
  if hdr.cameca_bin_file_type ≠ 6 then .error (.wrongFileType hdr.file_type)
  else do
    let (b28, p) ← readN bs p 28
    let data_type := i32le (b28.take 4)
    let noi := i32le (b28.drop 24)
    if data_type ≠ 11 then .error (.unexpectedWDSStruct data_type p)
    else do
      let (ds, _) ← readDatasets bs p noi.toNat
      .ok ⟨hdr, noi, ds⟩

/-! ## Concrete test buffers

Buffers used to exercise the parser at specific inputs; each component is
written in the order the decoder consumes it. -/

/-- Little-endian 4-byte encoding of a 32-bit value (for building test
buffers). -/
def i32leBytes (v : Int) : Bytes :=
  let u := (v % 2 ^ 32).toNat
  [u % 256, u / 256 % 256, u / 2 ^ 16 % 256, u / 2 ^ 24 % 256]

/-- A minimal valid header buffer with type code `t`, version 1, comment
`"t"` and an empty change log (45 bytes). -/
def hdrBuf (t : Nat) : Bytes :=
  [t] ++ ascii "fxs" ++ [1, 0, 0, 0] ++ [1, 0, 0, 0] ++ ascii "t"
    ++ List.replicate 28 0 ++ [0, 0, 0, 0]

/-- The end-to-end buffer of the spec's synthetic test: header with type
code 6, then discriminator 11, 20 reserved bytes, item count 1, and one
dataset item with condition file `"c"`, zero measurement sub-records and
name `"n"`. -/
def c1buf : Bytes :=
  hdrBuf 6
    ++ [11, 0, 0, 0] ++ List.replicate 20 0 ++ [1, 0, 0, 0]
    ++ [17, 0, 0, 0] ++ List.replicate 4 0 ++ List.replicate 32 0
    ++ List.replicate 12 0 ++ List.replicate 8 0 ++ List.replicate 4 0
    ++ List.replicate 196 0 ++ List.replicate 40 0
    ++ [1, 0, 0, 0] ++ ascii "c" ++ [0, 0, 0, 0]
    ++ [1, 0, 0, 0] ++ ascii "n" ++ List.replicate 316 0

/-- A measurement-record buffer whose fixed 120-byte prefix is all zeros
except the `data_array_size` field, followed by `payload`. -/
def recBuf (size : Int) (payload : Bytes) : Bytes :=
  List.replicate 120 0 ++ i32leBytes size ++ payload

/-- The building blocks of one measurement record inside a constructed
dataset-item buffer: the 76-byte field block, the 24 skipped bytes, the
24-byte field block (whose last four bytes encode `data_array_size`), the
sample-data payload and the 124 skipped trailing bytes. -/
structure RecInput where
  b76 : Bytes
  r24 : Bytes
  b24 : Bytes
  payload : Bytes
  r124 : Bytes

/-- The byte-level well-formedness of a `RecInput`: every block has its
fixed length, the encoded `data_array_size` equals the payload length,
and the payload length is a multiple of four. -/
def RecInput.wf (ri : RecInput) : Prop :=
  ri.b76.length = 76 ∧ ri.r24.length = 24 ∧ ri.b24.length = 24
    ∧ i32le ((ri.b24.drop 20).take 4) = (ri.payload.length : Int)
    ∧ ri.payload.length % 4 = 0 ∧ ri.r124.length = 124

instance (ri : RecInput) : Decidable ri.wf := by
  unfold RecInput.wf; infer_instance

/-- The bytes of one measurement record, in consumption order. -/
def RecInput.bytes (ri : RecInput) : Bytes :=
  ri.b76 ++ ri.r24 ++ ri.b24 ++ ri.payload ++ ri.r124

/-- The concatenated bytes of a list of measurement records. -/
def recListBytes (rs : List RecInput) : Bytes :=
  rs.foldr (fun ri acc => ri.bytes ++ acc) []

/-- The `MeasurementRec` that `read_item` assembles from the two field
blocks and the payload of a well-formed `RecInput`. -/
def RecInput.toRec (ri : RecInput) : MeasurementRec where
  struct_type := i32le (ri.b76.take 4)
  unk_type := i32le ((ri.b76.drop 4).take 4)
  atom_number := i32le ((ri.b76.drop 8).take 4)
  line := i32le ((ri.b76.drop 12).take 4)
  unknw3 := i32le ((ri.b76.drop 16).take 4)
  spect_no := i32le ((ri.b76.drop 20).take 4)
  spect_name := i32le ((ri.b76.drop 24).take 4)
  twoD := u32le ((ri.b76.drop 28).take 4)
  K := u32le ((ri.b76.drop 32).take 4)
  unkwn4 := i32le ((ri.b76.drop 36).take 4)
  kV := u32le ((ri.b76.drop 40).take 4)
  current := u32le ((ri.b76.drop 44).take 4)
  peak_pos := i32le ((ri.b76.drop 48).take 4)
  bias := i32le ((ri.b76.drop 52).take 4)
  gain := i32le ((ri.b76.drop 56).take 4)
  dtime := i32le ((ri.b76.drop 60).take 4)
  blin := i32le ((ri.b76.drop 64).take 4)
  window := i32le ((ri.b76.drop 68).take 4)
  mode := i32le ((ri.b76.drop 72).take 4)
  wds_start_pos := i32le (ri.b24.take 4)
  steps := i32le ((ri.b24.drop 4).take 4)
  step_size := u32le ((ri.b24.drop 8).take 4)
  dwell_time := u32le ((ri.b24.drop 12).take 4)
  beam_size := i32le ((ri.b24.drop 16).take 4)
  data_array_size := i32le ((ri.b24.drop 20).take 4)
  data := u32chunks ri.payload

/-- The building blocks of a constructed dataset-item buffer, in
consumption order: discriminator, 4 skipped bytes, the 32-byte field
block, 12 skipped bytes, the 8-byte field block, 4 skipped bytes, the
196-byte `z_axis` block, 40 skipped bytes, the length prefix and bytes of
`condition_file`, the sub-record count, the measurement records, the
length prefix and bytes of `name`, and the 316 skipped trailing bytes. -/
structure ItemInput where
  disc : Bytes
  r4 : Bytes
  b32 : Bytes
  r12 : Bytes
  b8 : Bytes
  r4b : Bytes
  zb : Bytes
  r40 : Bytes
  cfL : Bytes
  cf : Bytes
  cnt : Bytes
  recs : List RecInput
  nmL : Bytes
  nm : Bytes
  r316 : Bytes

/-- Byte-level well-formedness of an `ItemInput`: every fixed block has
its fixed length, the discriminator encodes 0x11, each length prefix
encodes the length of its payload, the count encodes the number of
records, and every record is well formed. -/
def ItemInput.wf (it : ItemInput) : Prop :=
  it.disc.length = 4 ∧ i32le it.disc = 0x11 ∧ it.r4.length = 4
    ∧ it.b32.length = 32 ∧ it.r12.length = 12 ∧ it.b8.length = 8
    ∧ it.r4b.length = 4 ∧ it.zb.length = 196 ∧ it.r40.length = 40
    ∧ it.cfL.length = 4 ∧ i32le it.cfL = (it.cf.length : Int)
    ∧ it.cnt.length = 4 ∧ i32le it.cnt = (it.recs.length : Int)
    ∧ (∀ ri ∈ it.recs, ri.wf) ∧ it.nmL.length = 4
    ∧ i32le it.nmL = (it.nm.length : Int) ∧ it.r316.length = 316

instance (it : ItemInput) : Decidable it.wf := by
  unfold ItemInput.wf; infer_instance

/-- The bytes of a constructed dataset item, in consumption order. -/
def ItemInput.bytes (it : ItemInput) : Bytes :=
  it.disc ++ it.r4 ++ it.b32 ++ it.r12 ++ it.b8 ++ it.r4b ++ it.zb
    ++ it.r40 ++ it.cfL ++ it.cf ++ it.cnt ++ recListBytes it.recs
    ++ it.nmL ++ it.nm ++ it.r316

/-- The `WDSItem` that `readWDSDatasetItem` assembles from a well-formed
`ItemInput`. -/
def ItemInput.item (it : ItemInput) : WDSItem where
  metadata :=
    { x_axis := i32le (it.b32.take 4)
      y_axis := i32le ((it.b32.drop 4).take 4)
      beam_x := i32le ((it.b32.drop 8).take 4)
      beam_y := i32le ((it.b32.drop 12).take 4)
      resolution_x := u32le ((it.b32.drop 16).take 4)
      resolution_y := u32le ((it.b32.drop 20).take 4)
      width := i32le ((it.b32.drop 24).take 4)
      height := i32le ((it.b32.drop 28).take 4)
      accumulation_times := i32le (it.b8.take 4)
      dwell_time := u32le (it.b8.drop 4)
      z_axis := (List.range 49).map fun k => i32le ((it.zb.drop (4 * k)).take 4)
      condition_file := pyBytesStr it.cf }
  data := it.recs.map RecInput.toRec
  name := pyBytesStr it.nm

/-- The measurement record `read_item` assembles when decoding starts at
position `p` of buffer `bs`, expressed with absolute byte offsets: the 76-
byte block at `p`, the 24-byte block at `p + 100` (after the 24 skipped
bytes), and the sample data read at `p + 124`. -/
def recAt (bs : Bytes) (p : Nat) : MeasurementRec where
  struct_type := i32le ((bs.drop p).take 4)
  unk_type := i32le ((bs.drop (p + 4)).take 4)
  atom_number := i32le ((bs.drop (p + 8)).take 4)
  line := i32le ((bs.drop (p + 12)).take 4)
  unknw3 := i32le ((bs.drop (p + 16)).take 4)
  spect_no := i32le ((bs.drop (p + 20)).take 4)
  spect_name := i32le ((bs.drop (p + 24)).take 4)
  twoD := u32le ((bs.drop (p + 28)).take 4)
  K := u32le ((bs.drop (p + 32)).take 4)
  unkwn4 := i32le ((bs.drop (p + 36)).take 4)
  kV := u32le ((bs.drop (p + 40)).take 4)
  current := u32le ((bs.drop (p + 44)).take 4)
  peak_pos := i32le ((bs.drop (p + 48)).take 4)
  bias := i32le ((bs.drop (p + 52)).take 4)
  gain := i32le ((bs.drop (p + 56)).take 4)
  dtime := i32le ((bs.drop (p + 60)).take 4)
  blin := i32le ((bs.drop (p + 64)).take 4)
  window := i32le ((bs.drop (p + 68)).take 4)
  mode := i32le ((bs.drop (p + 72)).take 4)
  wds_start_pos := i32le ((bs.drop (p + 100)).take 4)
  steps := i32le ((bs.drop (p + 104)).take 4)
  step_size := u32le ((bs.drop (p + 108)).take 4)
  dwell_time := u32le ((bs.drop (p + 112)).take 4)
  beam_size := i32le ((bs.drop (p + 116)).take 4)
  data_array_size := i32le ((bs.drop (p + 120)).take 4)
  data := u32chunks (pyRead bs (p + 124) (i32le ((bs.drop (p + 120)).take 4))).1

/-- A concrete well-formed dataset-item input with one measurement record
(condition file `"c"`, name `"n"`, a 4-byte sample payload). -/
def c2it : ItemInput where
  disc := [17, 0, 0, 0]
  r4 := [0, 0, 0, 0]
  b32 := List.replicate 32 1
  r12 := List.replicate 12 0
  b8 := List.replicate 8 2
  r4b := List.replicate 4 0
  zb := List.replicate 196 3
  r40 := List.replicate 40 0
  cfL := [1, 0, 0, 0]
  cf := [99]
  cnt := [1, 0, 0, 0]
  recs := [⟨List.replicate 76 4, List.replicate 24 0,
    List.replicate 20 5 ++ [4, 0, 0, 0], [9, 9, 9, 9], List.replicate 124 0⟩]
  nmL := [1, 0, 0, 0]
  nm := [110]
  r316 := List.replicate 316 0

/-! ## Helper lemmas on the primitive decoders -/

theorem bind_ok_eq (x : α) (f : α → Except PyErr β) :
    (Except.ok x >>= f : Except PyErr β) = f x := rfl

theorem bind_error_eq (e : PyErr) (f : α → Except PyErr β) :
    (Except.error e >>= f : Except PyErr β) = .error e := rfl

/-- A `readN` with enough bytes available returns the exact slice. -/
theorem readN_eq (bs : Bytes) (p n : Nat) (h : p + n ≤ bs.length) :
    readN bs p n = .ok ((bs.drop p).take n, p + n) := by
  have hlen : ((bs.drop p).take n).length = n := by
    simp [List.length_take, List.length_drop]; omega
  have hneg : ¬ ((n : Nat) : Int) < 0 := by omega
  simp [readN, pyRead, hlen, hneg]

/-- A `readN` positioned at the start of a designated slice of an appended
buffer returns that slice. -/
theorem readN_append (bs pre xs rest : Bytes) (p n : Nat)
    (hb : bs = pre ++ (xs ++ rest)) (hp : p = pre.length) (h : xs.length = n) :
    readN bs p n = .ok (xs, p + n) := by
  subst hb hp h
  rw [readN_eq]
  · rw [List.drop_left, List.take_left]
  · simp

/-- A `pyRead` of a non-negative count positioned at the start of a
designated slice of an appended buffer returns that slice. -/
theorem pyRead_append (bs pre xs rest : Bytes) (p : Nat) (n : Int)
    (hb : bs = pre ++ (xs ++ rest)) (hp : p = pre.length)
    (h : (xs.length : Int) = n) :
    pyRead bs p n = (xs, p + xs.length) := by
  subst hb hp
  have h0 : ¬ n < 0 := by omega
  have hn : n.toNat = xs.length := by omega
  simp [pyRead, h0, hn, List.drop_left, List.take_left]

/-- `read_c_hash_string` positioned over a length prefix that matches the
following slice returns Python's `str()` of that slice. -/
theorem read_c_hash_string_append (bs pre lb xs rest : Bytes) (p : Nat)
    (hb : bs = pre ++ (lb ++ (xs ++ rest))) (hp : p = pre.length)
    (hlb : lb.length = 4) (hn : i32le lb = (xs.length : Int)) :
    read_c_hash_string bs p = .ok (pyBytesStr xs, p + 4 + xs.length) := by
  have h1 := readN_append bs pre lb (xs ++ rest) p 4 (by rw [hb]) hp hlb
  have h2 := pyRead_append bs (pre ++ lb) xs rest (p + 4) (xs.length : Int)
    (by rw [hb, List.append_assoc]) (by simp [hp, hlb]) rfl
  simp [read_c_hash_string, h1, h2, hn, bind_ok_eq, Nat.add_assoc]

/-- A double slice collapses to a single slice at an absolute offset. -/
theorem slice_slice (bs : Bytes) (p k n m : Nat) (h : k + m ≤ n) :
    (((bs.drop p).take n).drop k).take m = (bs.drop (p + k)).take m := by
  rw [List.drop_take, List.take_take, List.drop_drop]
  have h1 : m ⊓ (n - k) = m := by omega
  rw [h1]

/-- The float array produced by `np.fromstring` has one entry per four
bytes read. -/
theorem u32chunks_length : ∀ b : Bytes, (u32chunks b).length = b.length / 4
  | b0 :: b1 :: b2 :: b3 :: rest => by
    rw [u32chunks]
    simp only [List.length_cons, u32chunks_length rest]
    omega
  | [] => by simp [u32chunks]
  | [_] => by simp [u32chunks]
  | [_, _] => by simp [u32chunks]
  | [_, _, _] => by simp [u32chunks]

/-- `read_item` at the start of one well-formed constructed record block
returns exactly the record assembled from that block and advances the
position past the whole block. -/
theorem read_item_append (bs pre rest : Bytes) (ri : RecInput) (p : Nat)
    (hb : bs = pre ++ (ri.bytes ++ rest)) (hp : p = pre.length)
    (hwf : ri.wf) :
    read_item bs p = .ok (ri.toRec, p + ri.bytes.length) := by
  obtain ⟨h76, hr24, h24, hsz, hpl, h124⟩ := hwf
  have h1 : readN bs p 76 = .ok (ri.b76, p + 76) :=
    readN_append bs pre ri.b76 (ri.r24 ++ (ri.b24 ++ (ri.payload ++ (ri.r124 ++ rest)))) p 76
      (by rw [hb]; simp [RecInput.bytes, List.append_assoc]) hp h76
  have h2 : readN bs (p + 76 + 24) 24 = .ok (ri.b24, p + 76 + 24 + 24) :=
    readN_append bs (pre ++ ri.b76 ++ ri.r24) ri.b24 (ri.payload ++ (ri.r124 ++ rest)) (p + 76 + 24) 24
      (by rw [hb]; simp [RecInput.bytes, List.append_assoc])
      (by simp [hp, h76, hr24]) h24
  have h3 : pyRead bs (p + 76 + 24 + 24) (i32le ((ri.b24.drop 20).take 4))
      = (ri.payload, p + 76 + 24 + 24 + ri.payload.length) := by
    rw [hsz]
    exact pyRead_append bs (pre ++ ri.b76 ++ ri.r24 ++ ri.b24) ri.payload (ri.r124 ++ rest)
      (p + 76 + 24 + 24) (ri.payload.length : Int)
      (by rw [hb]; simp [RecInput.bytes, List.append_assoc])
      (by simp [hp, h76, hr24, h24]) rfl
  have hlen : ri.bytes.length = 248 + ri.payload.length := by
    simp [RecInput.bytes, h76, hr24, h24, h124]; omega
  simp [read_item, h1, h2, h3, bind_ok_eq, hpl, hlen, RecInput.toRec]
  omega

/-- The sub-record loop over a concatenation of well-formed constructed
record blocks returns the corresponding records. -/
theorem readItems_append (bs : Bytes) :
    ∀ (rs : List RecInput) (pre rest : Bytes) (p : Nat),
      bs = pre ++ (recListBytes rs ++ rest) → p = pre.length →
      (∀ ri ∈ rs, ri.wf) →
      readItems bs p rs.length
        = .ok (rs.map RecInput.toRec, p + (recListBytes rs).length)
  | [], pre, rest, p, hb, hp, hwf => by simp [readItems, recListBytes]
  | ri :: rs, pre, rest, p, hb, hp, hwf => by
    have h1 : read_item bs p = .ok (ri.toRec, p + ri.bytes.length) :=
      read_item_append bs pre (recListBytes rs ++ rest) ri p
        (by rw [hb]; simp [recListBytes, List.append_assoc]) hp
        (hwf ri (by simp))
    have h2 := readItems_append bs rs (pre ++ ri.bytes) rest (p + ri.bytes.length)
      (by rw [hb]; simp [recListBytes, List.append_assoc])
      (by simp [hp]) (fun r hr => hwf r (by simp [hr]))
    simp [readItems, h1, h2, bind_ok_eq, recListBytes, Nat.add_assoc]

/-- `readWDSDatasetItem` at the start of a well-formed constructed
dataset-item buffer returns exactly the item assembled from its blocks
and advances the position past the whole buffer. -/
theorem readWDSDatasetItem_append (bs pre rest : Bytes) (it : ItemInput) (p : Nat)
    (hb : bs = pre ++ (it.bytes ++ rest)) (hp : p = pre.length)
    (hwf : it.wf) :
    readWDSDatasetItem bs p = .ok (it.item, p + it.bytes.length) := by
  obtain ⟨hd4, hd17, hr4, h32, hr12, h8, hr4b, hzb, hr40, hcfL, hcfv,
    hcnt4, hcntv, hrecs, hnmL, hnmv, hr316⟩ := hwf
  have assoc : bs = pre ++ (it.disc ++ (it.r4 ++ (it.b32 ++ (it.r12 ++ (it.b8 ++ (it.r4b ++ (it.zb ++ (it.r40 ++ (it.cfL ++ (it.cf ++ (it.cnt ++ (recListBytes it.recs ++ (it.nmL ++ (it.nm ++ (it.r316 ++ (rest)))))))))))))))) := by
    rw [hb]; simp [ItemInput.bytes, List.append_assoc]
  have h1 : readN bs p 4 = .ok (it.disc, p + 4) :=
    readN_append bs pre it.disc (it.r4 ++ (it.b32 ++ (it.r12 ++ (it.b8 ++ (it.r4b ++ (it.zb ++ (it.r40 ++ (it.cfL ++ (it.cf ++ (it.cnt ++ (recListBytes it.recs ++ (it.nmL ++ (it.nm ++ (it.r316 ++ (rest))))))))))))))) p 4 assoc hp hd4
  have h2 : readN bs (p + 4 + 4) 32 = .ok (it.b32, p + 4 + 4 + 32) :=
    readN_append bs (pre ++ it.disc ++ it.r4) it.b32 (it.r12 ++ (it.b8 ++ (it.r4b ++ (it.zb ++ (it.r40 ++ (it.cfL ++ (it.cf ++ (it.cnt ++ (recListBytes it.recs ++ (it.nmL ++ (it.nm ++ (it.r316 ++ (rest))))))))))))) (p + 4 + 4) 32
      (by rw [assoc]; simp [List.append_assoc]) (by simp [hp, hd4, hr4]) h32
  have h3 : readN bs (p + 4 + 4 + 32 + 12) 8 = .ok (it.b8, p + 4 + 4 + 32 + 12 + 8) :=
    readN_append bs (pre ++ it.disc ++ it.r4 ++ it.b32 ++ it.r12) it.b8 (it.r4b ++ (it.zb ++ (it.r40 ++ (it.cfL ++ (it.cf ++ (it.cnt ++ (recListBytes it.recs ++ (it.nmL ++ (it.nm ++ (it.r316 ++ (rest)))))))))))
      (p + 4 + 4 + 32 + 12) 8
      (by rw [assoc]; simp [List.append_assoc]) (by simp [hp, hd4, hr4, h32, hr12]) h8
  have h4 : readN bs (p + 4 + 4 + 32 + 12 + 8 + 4) 196
      = .ok (it.zb, p + 4 + 4 + 32 + 12 + 8 + 4 + 196) :=
    readN_append bs (pre ++ it.disc ++ it.r4 ++ it.b32 ++ it.r12 ++ it.b8 ++ it.r4b) it.zb
      (it.r40 ++ (it.cfL ++ (it.cf ++ (it.cnt ++ (recListBytes it.recs ++ (it.nmL ++ (it.nm ++ (it.r316 ++ (rest))))))))) (p + 4 + 4 + 32 + 12 + 8 + 4) 196
      (by rw [assoc]; simp [List.append_assoc])
      (by simp [hp, hd4, hr4, h32, hr12, h8, hr4b]) hzb
  have h5 : read_c_hash_string bs (p + 4 + 4 + 32 + 12 + 8 + 4 + 196 + 40)
      = .ok (pyBytesStr it.cf, p + 4 + 4 + 32 + 12 + 8 + 4 + 196 + 40 + 4 + it.cf.length) :=
    read_c_hash_string_append bs
      (pre ++ it.disc ++ it.r4 ++ it.b32 ++ it.r12 ++ it.b8 ++ it.r4b ++ it.zb ++ it.r40)
      it.cfL it.cf (it.cnt ++ (recListBytes it.recs ++ (it.nmL ++ (it.nm ++ (it.r316 ++ (rest)))))) (p + 4 + 4 + 32 + 12 + 8 + 4 + 196 + 40)
      (by rw [assoc]; simp [List.append_assoc])
      (by simp [hp, hd4, hr4, h32, hr12, h8, hr4b, hzb, hr40]) hcfL hcfv
  have h6 : readN bs (p + 4 + 4 + 32 + 12 + 8 + 4 + 196 + 40 + 4 + it.cf.length) 4
      = .ok (it.cnt, p + 4 + 4 + 32 + 12 + 8 + 4 + 196 + 40 + 4 + it.cf.length + 4) :=
    readN_append bs
      (pre ++ it.disc ++ it.r4 ++ it.b32 ++ it.r12 ++ it.b8 ++ it.r4b ++ it.zb ++ it.r40
        ++ it.cfL ++ it.cf) it.cnt (recListBytes it.recs ++ (it.nmL ++ (it.nm ++ (it.r316 ++ (rest)))))
      (p + 4 + 4 + 32 + 12 + 8 + 4 + 196 + 40 + 4 + it.cf.length) 4
      (by rw [assoc]; simp [List.append_assoc])
      (by simp [hp, hd4, hr4, h32, hr12, h8, hr4b, hzb, hr40, hcfL]; omega) hcnt4
  have h7 : readItems bs (p + 4 + 4 + 32 + 12 + 8 + 4 + 196 + 40 + 4 + it.cf.length + 4)
        it.recs.length
      = .ok (it.recs.map RecInput.toRec,
          p + 4 + 4 + 32 + 12 + 8 + 4 + 196 + 40 + 4 + it.cf.length + 4
            + (recListBytes it.recs).length) :=
    readItems_append bs it.recs
      (pre ++ it.disc ++ it.r4 ++ it.b32 ++ it.r12 ++ it.b8 ++ it.r4b ++ it.zb ++ it.r40
        ++ it.cfL ++ it.cf ++ it.cnt) (it.nmL ++ (it.nm ++ (it.r316 ++ (rest))))
      (p + 4 + 4 + 32 + 12 + 8 + 4 + 196 + 40 + 4 + it.cf.length + 4)
      (by rw [assoc]; simp [List.append_assoc])
      (by simp [hp, hd4, hr4, h32, hr12, h8, hr4b, hzb, hr40, hcfL, hcnt4]; omega) hrecs
  have h8 : read_c_hash_string bs
        (p + 4 + 4 + 32 + 12 + 8 + 4 + 196 + 40 + 4 + it.cf.length + 4
          + (recListBytes it.recs).length)
      = .ok (pyBytesStr it.nm,
          p + 4 + 4 + 32 + 12 + 8 + 4 + 196 + 40 + 4 + it.cf.length + 4
            + (recListBytes it.recs).length + 4 + it.nm.length) :=
    read_c_hash_string_append bs
      (pre ++ it.disc ++ it.r4 ++ it.b32 ++ it.r12 ++ it.b8 ++ it.r4b ++ it.zb ++ it.r40
        ++ it.cfL ++ it.cf ++ it.cnt ++ recListBytes it.recs)
      it.nmL it.nm (it.r316 ++ rest)
      (p + 4 + 4 + 32 + 12 + 8 + 4 + 196 + 40 + 4 + it.cf.length + 4
        + (recListBytes it.recs).length)
      (by rw [assoc]; simp [List.append_assoc])
      (by simp [hp, hd4, hr4, h32, hr12, h8, hr4b, hzb, hr40, hcfL, hcnt4]; omega)
      hnmL hnmv
  have hlen : it.bytes.length
      = 628 + it.cf.length + (recListBytes it.recs).length + it.nm.length := by
    simp [ItemInput.bytes, hd4, hr4, h32, hr12, h8, hr4b, hzb, hr40, hcfL,
      hcnt4, hnmL, hr316]
    omega
  simp [readWDSDatasetItem, h1, h2, h3, h4, h5, h6, h7, h8, bind_ok_eq, hd17,
    hcntv, Int.toNat_natCast, hlen, ItemInput.item]
  omega

/-- `read_the_header` on a buffer that starts with a well-formed header
carrying type byte `t`, an `fxs` tag, a comment, the 28 reserved bytes and
an empty change log succeeds, whatever the incoming position and whatever
follows the header. -/
theorem read_the_header_append (bs ver4 cLen4 cmt r28 rest name : Bytes) (t p0 : Nat)
    (hb : bs = [t] ++ (ascii "fxs" ++ (ver4 ++ (cLen4 ++ (cmt ++ (r28 ++ ([0, 0, 0, 0] ++ rest)))))))
    (ht : t < 256) (hv : ver4.length = 4) (hc : cLen4.length = 4)
    (hcv : i32le cLen4 = (cmt.length : Int)) (hr : r28.length = 28)
    (hname : value_map t = some name) (hutf : utf8Valid cmt = true) :
    read_the_header bs p0 = .ok (⟨t, name, i32le ver4, cmt, []⟩, 44 + cmt.length) := by
  have haf : (ascii "fxs").length = 3 := by rfl
  have h12len : (([t] ++ (ascii "fxs" ++ (ver4 ++ cLen4))) : Bytes).length = 12 := by
    simp [ascii, hv, hc]
  have h1 : readN bs 0 12 = .ok ([t] ++ (ascii "fxs" ++ (ver4 ++ cLen4)), 0 + 12) :=
    readN_append bs [] ([t] ++ (ascii "fxs" ++ (ver4 ++ cLen4)))
      (cmt ++ (r28 ++ ([0, 0, 0, 0] ++ rest))) 0 12
      (by rw [hb]; simp [List.append_assoc]) rfl h12len
  have hu8 : u8 ([t] ++ (ascii "fxs" ++ (ver4 ++ cLen4))) = t := by
    rw [u8, @List.take_left' Nat [t] (ascii "fxs" ++ (ver4 ++ cLen4)) 1 (by rfl)]
    simp [leNat]
    omega
  have htag : ((([t] ++ (ascii "fxs" ++ (ver4 ++ cLen4))) : Bytes).drop 1).take 3
      = ascii "fxs" := by
    rw [List.singleton_append, List.drop_succ_cons, List.drop_zero]
    exact List.take_left' (by rfl)
  have hver : ((([t] ++ (ascii "fxs" ++ (ver4 ++ cLen4))) : Bytes).drop 4).take 4 = ver4 := by
    have : (([t] ++ (ascii "fxs" ++ (ver4 ++ cLen4))) : Bytes)
        = ([t] ++ ascii "fxs") ++ (ver4 ++ cLen4) := by simp [List.append_assoc]
    rw [this, List.drop_left' (by rfl), List.take_left' hv]
  have hlen4 : ((([t] ++ (ascii "fxs" ++ (ver4 ++ cLen4))) : Bytes).drop 8) = cLen4 := by
    have : (([t] ++ (ascii "fxs" ++ (ver4 ++ cLen4))) : Bytes)
        = (([t] ++ ascii "fxs") ++ ver4) ++ cLen4 := by simp [List.append_assoc]
    rw [this, List.drop_left' (by simp [ascii, hv])]
  have h2 : pyRead bs 12 (i32le cLen4) = (cmt, 12 + cmt.length) := by
    rw [hcv]
    exact pyRead_append bs ([t] ++ (ascii "fxs" ++ (ver4 ++ cLen4))) cmt
      (r28 ++ ([0, 0, 0, 0] ++ rest)) 12 (cmt.length : Int)
      (by rw [hb]; simp [List.append_assoc]) (by rw [h12len]) rfl
  have h3 : readN bs (12 + cmt.length + 28) 4
      = .ok ([0, 0, 0, 0], 12 + cmt.length + 28 + 4) :=
    readN_append bs (([t] ++ (ascii "fxs" ++ (ver4 ++ cLen4))) ++ cmt ++ r28)
      [0, 0, 0, 0] rest (12 + cmt.length + 28) 4
      (by rw [hb]; simp [List.append_assoc])
      (by simp [haf, hr, hv, hc]; omega) (by rfl)
  have hz : i32le ([0, 0, 0, 0] : Bytes) = 0 := by rfl
  simp only [read_the_header, h1, h2, h3, bind_ok_eq, hu8, htag, hver, hlen4, hz,
    hname, readChanges, pyDecode, hutf]
  rw [if_neg (by simp), if_pos trivial, bind_ok_eq]
  simp
  omega

/-- With the fixed 124-byte field region available, `read_item` reduces to
the `np.fromstring` alignment test on the bytes actually returned for the
sample-data read: a misaligned byte count raises `ValueError`, anything
else yields the record decoded at absolute offsets. -/
theorem read_item_eq (bs : Bytes) (p : Nat) (h : p + 124 ≤ bs.length) :
    read_item bs p =
      if (pyRead bs (p + 124) (i32le ((bs.drop (p + 120)).take 4))).1.length % 4 ≠ 0
      then .error .valueError
      else .ok (recAt bs p,
        (pyRead bs (p + 124) (i32le ((bs.drop (p + 120)).take 4))).2 + 124) := by
  have h1 : readN bs p 76 = .ok ((bs.drop p).take 76, p + 76) :=
    readN_eq bs p 76 (by omega)
  have h2 : readN bs (p + 100) 24 = .ok ((bs.drop (p + 100)).take 24, p + 100 + 24) :=
    readN_eq bs (p + 100) 24 (by omega)
  have hsl76 : ∀ k m : Nat, k + m ≤ 76 →
      (((bs.drop p).take 76).drop k).take m = (bs.drop (p + k)).take m :=
    fun k m hk => slice_slice bs p k 76 m hk
  have hsl24 : ∀ k m : Nat, k + m ≤ 24 →
      (((bs.drop (p + 100)).take 24).drop k).take m = (bs.drop (p + 100 + k)).take m :=
    fun k m hk => slice_slice bs (p + 100) k 24 m hk
  have ht76 : ((bs.drop p).take 76).take 4 = (bs.drop p).take 4 := by
    rw [List.take_take]; norm_num
  have ht24 : ((bs.drop (p + 100)).take 24).take 4 = (bs.drop (p + 100)).take 4 := by
    rw [List.take_take]; norm_num
  simp only [read_item, h1, h2, bind_ok_eq, Nat.add_assoc, Nat.reduceAdd]
  simp only [hsl76 4 4 (by omega), hsl76 8 4 (by omega), hsl76 12 4 (by omega),
    hsl76 16 4 (by omega), hsl76 20 4 (by omega), hsl76 24 4 (by omega),
    hsl76 28 4 (by omega), hsl76 32 4 (by omega), hsl76 36 4 (by omega),
    hsl76 40 4 (by omega), hsl76 44 4 (by omega), hsl76 48 4 (by omega),
    hsl76 52 4 (by omega), hsl76 56 4 (by omega), hsl76 60 4 (by omega),
    hsl76 64 4 (by omega), hsl76 68 4 (by omega), hsl76 72 4 (by omega),
    hsl24 4 4 (by omega), hsl24 8 4 (by omega), hsl24 12 4 (by omega),
    hsl24 16 4 (by omega), hsl24 20 4 (by omega), ht76, ht24,
    Nat.add_assoc, Nat.reduceAdd]
  rfl

/-- Round-half-even division exceeds the floored quotient by at most one. -/
theorem rheDiv_le_div_succ (n d : Nat) : rheDiv n d ≤ n / d + 1 := by
  unfold rheDiv
  dsimp only
  split_ifs
  · exact Nat.le_succ _
  · exact Nat.le_refl _
  · exact Nat.le_succ _
  · exact Nat.le_refl _

/-- The sub-integer branch of the float model: rounding `ft / 10` to a
dyadic grid and then to whole microseconds lands at most two above the
floored exact quotient. -/
theorem double_round_le (ft T : Nat) (hT : 0 < T) :
    rheDiv (rheDiv (ft * T) 10) T ≤ ft / 10 + 2 := by
  have h1 : rheDiv (ft * T) 10 ≤ ft * T / 10 + 1 := rheDiv_le_div_succ _ _
  have h2 : rheDiv (rheDiv (ft * T) 10) T ≤ rheDiv (ft * T) 10 / T + 1 :=
    rheDiv_le_div_succ _ _
  have h3 : rheDiv (ft * T) 10 / T ≤ (ft * T / 10 + 1) / T :=
    Nat.div_le_div_right h1
  have h4 : (ft * T / 10 + 1) / T ≤ ft * T / 10 / T + 1 := by
    calc (ft * T / 10 + 1) / T ≤ (ft * T / 10 + T) / T :=
          Nat.div_le_div_right (by omega)
      _ = ft * T / 10 / T + 1 := Nat.add_div_right _ hT
  have h5 : ft * T / 10 / T = ft / 10 := by
    rw [Nat.div_div_eq_div_mul, Nat.mul_comm 10 T, ← Nat.div_div_eq_div_mul,
      Nat.mul_div_cancel _ hT]
  omega

/-- The fuelled floor logarithm is bounded by any exponent whose power
exceeds the value. -/
theorem floorLog2_le (fuel : Nat) :
    ∀ v n : Nat, v < 2 ^ (n + 1) → floorLog2 fuel v ≤ n := by
  induction fuel with
  | zero => intro v n _; simp [floorLog2]
  | succ f ih =>
    intro v n h
    rw [floorLog2]
    split
    · omega
    · cases n with
      | zero =>
        simp [pow_succ] at h
        omega
      | succ m =>
        have hdiv : v / 2 < 2 ^ (m + 1) := by
          rw [Nat.div_lt_iff_lt_mul (by omega)]
          calc v < 2 ^ (m + 1 + 1) := h
            _ = 2 ^ (m + 1) * 2 := by rw [pow_succ]
        have := ih (v / 2) m hdiv
        omega

/-! ## Claim theorems -/

set_option maxRecDepth 10000

/-- **C1.** Parsing the spec's minimal synthetic buffer (header with type
code 6, version 1, comment `"t"`, no changes; discriminator 11; 20
reserved bytes; item count 1; one dataset item with 0 measurement
sub-records) succeeds with exactly one dataset whose measurement sequence
is empty — but, because `read_c_hash_string` applies Python-3 `str()` to
a bytes object instead of decoding it, the `condition_file` and `name`
fields come back as the repr strings `b'c'` and `b'n'`, not as the
encoded strings `c` and `n`.  This settles the claim as a code bug: the
string fields do not equal the strings encoded in the buffer. -/
theorem c1_end_to_end_parse :
    (CamecaWDSparse c1buf).toOption.map (fun f =>
      (f.datasets.length, f.datasets.map fun d => d.data.length,
       f.datasets.map fun d => d.metadata.condition_file,
       f.datasets.map fun d => d.name))
      = some (1, [0], [pyBytesStr (ascii "c")], [pyBytesStr (ascii "n")])
    ∧ pyBytesStr (ascii "c") = ascii "b'c'"
    ∧ pyBytesStr (ascii "c") ≠ ascii "c"
    ∧ pyBytesStr (ascii "n") ≠ ascii "n" :=
  ⟨rfl, rfl, by decide, by decide⟩

/-- **C5, counterexample.** A length prefix encoding `-4` does not make
`read_c_hash_string` fail with `InvalidLength`: Python's `read` treats the
negative count as "read to EOF", so the call succeeds and returns the
`str()` of the remaining byte. -/
theorem c5_counterexample :
    i32le [252, 255, 255, 255] = -4
    ∧ read_c_hash_string [252, 255, 255, 255, 65] 0 = .ok ([98, 39, 65, 39], 5) :=
  ⟨rfl, rfl⟩

/-- **C5, amended.** The length-prefixed string reader reads one
little-endian signed 32-bit length and never validates it: a negative
length reads all remaining bytes instead of failing with `InvalidLength`,
a length exceeding the remaining bytes is silently truncated instead of
failing with `UnexpectedEof`, and the bytes read are returned as Python's
`str()` rendering of the bytes object. -/
theorem c5_amended (bs : Bytes) (p : Nat) (h4 : p + 4 ≤ bs.length) :
    (i32le ((bs.drop p).take 4) < 0 →
      read_c_hash_string bs p = .ok (pyBytesStr (bs.drop (p + 4)), bs.length))
    ∧ (0 ≤ i32le ((bs.drop p).take 4) →
      read_c_hash_string bs p
        = .ok (pyBytesStr ((bs.drop (p + 4)).take (i32le ((bs.drop p).take 4)).toNat),
            p + 4 + min (i32le ((bs.drop p).take 4)).toNat (bs.length - (p + 4)))) := by
  have h1 : readN bs p 4 = .ok ((bs.drop p).take 4, p + 4) := readN_eq bs p 4 h4
  constructor
  · intro hneg
    simp [read_c_hash_string, h1, bind_ok_eq, pyRead, hneg, List.length_drop]
    omega
  · intro hpos
    have hneg : ¬ i32le ((bs.drop p).take 4) < 0 := by omega
    simp [read_c_hash_string, h1, bind_ok_eq, pyRead, hneg, List.length_take,
      List.length_drop]

/-- Witness for C5 amended: a buffer whose prefix declares 2 bytes while
only 1 remains; the reader succeeds with the truncated byte. -/
theorem c5_amended_witness :
    read_c_hash_string [2, 0, 0, 0, 65] 0
      = .ok (pyBytesStr (((([2, 0, 0, 0, 65] : Bytes).drop (0 + 4)).take
          (i32le ((([2, 0, 0, 0, 65] : Bytes).drop 0).take 4)).toNat)),
        0 + 4 + min (i32le ((([2, 0, 0, 0, 65] : Bytes).drop 0).take 4)).toNat
          (([2, 0, 0, 0, 65] : Bytes).length - (0 + 4))) :=
  (c5_amended [2, 0, 0, 0, 65] 0 (by decide)).2 (by decide)

/-- **C3, counterexample.** A record that declares `data_array_size = 8`
with only 4 bytes remaining decodes successfully (1 sample, from the 4
bytes Python's `read` actually returned) instead of failing with
`InvalidArrayLength`. -/
theorem c3_counterexample :
    (recBuf 8 [0, 0, 0, 0]).length = 128
    ∧ (read_item (recBuf 8 [0, 0, 0, 0]) 0).toOption.map
        (fun r => (r.1.data_array_size, r.1.data.length)) = some (8, 1) :=
  ⟨rfl, rfl⟩

/-- **C3, amended.** `read_item` performs no validation of
`data_array_size` at all: when the declared size is negative or exceeds
the bytes remaining after the size field, `fbio.read` returns every
remaining byte and decoding succeeds whenever that remainder is a
multiple of four (misalignment alone raises numpy's `ValueError`); no
`InvalidArrayLength` error and no reported offset exist in the code. -/
theorem c3_amended (bs : Bytes) (p : Nat) (h : p + 124 ≤ bs.length)
    (hbad : i32le ((bs.drop (p + 120)).take 4) < 0
      ∨ ((bs.length - (p + 124) : Nat) : Int) < i32le ((bs.drop (p + 120)).take 4))
    (hmod : (bs.length - (p + 124)) % 4 = 0) :
    read_item bs p = .ok (recAt bs p, bs.length + 124) := by
  have heq : pyRead bs (p + 124) (i32le ((bs.drop (p + 120)).take 4))
      = (bs.drop (p + 124), bs.length) := by
    by_cases hlt : i32le ((bs.drop (p + 120)).take 4) < 0
    · simp [pyRead, hlt, List.length_drop]
      omega
    · have hge : (bs.drop (p + 124)).length
          ≤ (i32le ((bs.drop (p + 120)).take 4)).toNat := by
        rcases hbad with hneg | hover
        · omega
        · simp [List.length_drop]
          omega
      simp [pyRead, hlt, List.take_of_length_le hge, List.length_drop]
      omega
  rw [read_item_eq bs p h, heq]
  simp [List.length_drop, hmod]

/-- Witness for C3 amended: the declared size 8 exceeds the 4 remaining
bytes, yet decoding succeeds. -/
theorem c3_amended_witness :
    read_item (recBuf 8 [0, 0, 0, 0]) 0
      = .ok (recAt (recBuf 8 [0, 0, 0, 0]) 0, (recBuf 8 [0, 0, 0, 0]).length + 124) :=
  c3_amended (recBuf 8 [0, 0, 0, 0]) 0 (by decide) (Or.inr (by decide)) (by decide)

/-- **C4, counterexample.** A successfully decoded record with
`data_array_size = 4` holds 1 sample value, not 4: the field counts
bytes, not elements, so the claimed equality fails at this input. -/
theorem c4_counterexample :
    (read_item (recBuf 4 [1, 2, 3, 4]) 0).toOption.map
        (fun r => (r.1.data_array_size, r.1.data.length)) = some (4, 1)
    ∧ (1 : Nat) ≠ 4 :=
  ⟨rfl, by decide⟩

/-- **C4, amended.** For every successfully decoded measurement record
whose declared `data_array_size` is non-negative and within the remaining
buffer, `sample_data` holds `data_array_size / 4` entries —
`data_array_size` counts bytes and each float32 entry takes four. -/
theorem c4_amended (bs : Bytes) (p : Nat) (r : MeasurementRec) (q : Nat)
    (hok : read_item bs p = .ok (r, q)) (h : p + 124 ≤ bs.length)
    (hpos : 0 ≤ r.data_array_size)
    (hfit : r.data_array_size.toNat ≤ bs.length - (p + 124)) :
    r.data.length = r.data_array_size.toNat / 4 := by
  rw [read_item_eq bs p h] at hok
  split at hok
  · exact absurd hok (by simp)
  · have hr : recAt bs p = r := by
      have := hok
      simp only [Except.ok.injEq, Prod.mk.injEq] at this
      exact this.1
    subst hr
    have hpos' : ¬ i32le ((bs.drop (p + 120)).take 4) < 0 := by
      simp only [recAt] at hpos
      omega
    have hfit' : (i32le ((bs.drop (p + 120)).take 4)).toNat ≤ bs.length - (p + 124) := by
      simp only [recAt] at hfit
      exact hfit
    simp only [recAt, u32chunks_length]
    simp [pyRead, hpos', List.length_take, List.length_drop]
    omega

/-- Witness for C4 amended: size 8 with exactly 8 payload bytes gives 2
sample entries. -/
theorem c4_amended_witness :
    (recAt (recBuf 8 [1, 2, 3, 4, 5, 6, 7, 8]) 0).data.length
      = (recAt (recBuf 8 [1, 2, 3, 4, 5, 6, 7, 8]) 0).data_array_size.toNat / 4 :=
  c4_amended (recBuf 8 [1, 2, 3, 4, 5, 6, 7, 8]) 0
    (recAt (recBuf 8 [1, 2, 3, 4, 5, 6, 7, 8]) 0)
    ((recBuf 8 [1, 2, 3, 4, 5, 6, 7, 8]).length + 124)
    (by rw [read_item_eq _ _ (by decide)]; decide) (by decide) (by decide) (by decide)

/-- **C9.** A measurement record whose declared `data_array_size` is
non-negative and within the remaining buffer but not a multiple of four
makes `read_item` fail (the `ValueError` of `np.fromstring`) rather than
return a truncated or padded sample array. -/
theorem c9_misaligned_array_fails (bs : Bytes) (p : Nat)
    (h : p + 124 ≤ bs.length)
    (hpos : 0 ≤ i32le ((bs.drop (p + 120)).take 4))
    (hfit : (i32le ((bs.drop (p + 120)).take 4)).toNat ≤ bs.length - (p + 124))
    (hmod : (i32le ((bs.drop (p + 120)).take 4)).toNat % 4 ≠ 0) :
    read_item bs p = .error .valueError := by
  rw [read_item_eq bs p h]
  have hneg : ¬ i32le ((bs.drop (p + 120)).take 4) < 0 := by omega
  have hlen : (pyRead bs (p + 124) (i32le ((bs.drop (p + 120)).take 4))).1.length
      = (i32le ((bs.drop (p + 120)).take 4)).toNat := by
    simp [pyRead, hneg, List.length_take, List.length_drop]
    omega
  simp [hlen, hmod]

/-- Witness for C9: declared size 2 with 2 bytes remaining fails with the
numpy alignment error. -/
theorem c9_witness : read_item (recBuf 2 [7, 7]) 0 = .error .valueError :=
  c9_misaligned_array_fails (recBuf 2 [7, 7]) 0 (by decide) (by decide)
    (by decide) (by decide)

/-- **C6, counterexample.** The FILETIME converter does not succeed on the
full u64 range: tick value 4·10^18 (below 2^64) corresponds to roughly
year 14274, past Python's `datetime.max`, so the conversion raises
`OverflowError`. -/
theorem c6_counterexample :
    (4000000000000000000 : Nat) < 2 ^ 64
    ∧ filetime_to_datetime 4000000000000000000 = .error .dateOverflow :=
  ⟨by decide, rfl⟩

/-- **C6, amended.** The converter maps tick 0 exactly to
1601-01-01T00:00:00 and tick 116444736000000000 exactly to
1970-01-01T00:00:00 (both float computations are exact), and it succeeds
on every tick value up to 2650467743999999839 — but not on the full u64
range: the very next tick 2650467743999999840, and for example
2650467743999999990, already round (in the binary64 division by ten,
whose grid spacing is 32 microseconds at that magnitude) to a microsecond
count one day past 9999-12-31 and raise `OverflowError`, as does every
larger tick value. -/
theorem c6_amended :
    filetime_to_datetime 0 = .ok ⟨1601, 1, 1, 0, 0, 0, 0⟩
    ∧ filetime_to_datetime 116444736000000000 = .ok ⟨1970, 1, 1, 0, 0, 0, 0⟩
    ∧ filetime_to_datetime 2650467743999999840 = .error .dateOverflow
    ∧ filetime_to_datetime 2650467743999999990 = .error .dateOverflow
    ∧ ∀ ft : Nat, ft ≤ 2650467743999999839 →
        (filetime_to_datetime ft).toOption.isSome = true := by
  refine ⟨rfl, rfl, rfl, rfl, ?_⟩
  intro ft hft
  have hdivft : ft / 10 ≤ 265046774399999983 := by omega
  have hm : divTicks ft ≤ 265046774399999999 := by
    unfold divTicks
    dsimp only
    split
    · -- the quotient is at least 2 ^ 52: binade exponent at most 57
      have he : floorLog2 128 (ft / 10) ≤ 57 :=
        floorLog2_le 128 (ft / 10) 57 (by omega)
      set s := floorLog2 128 (ft / 10) - 52 with hs
      have hs5 : s ≤ 5 := by omega
      interval_cases s <;> · unfold rheDiv; norm_num; split_ifs <;> omega
    · -- the quotient is below 2 ^ 52: far from the overflow boundary
      have := double_round_le ft (2 ^ (52 - floorLog2 128 (ft / 10)))
        (Nat.pos_pow_of_pos _ (by omega))
      omega
  have hcond : ¬ (maxOrdinal < ord1601 + divTicks ft / 86400000000) := by
    have hmax : maxOrdinal = 3652059 := rfl
    have h1601 : ord1601 = 584389 := rfl
    have : divTicks ft / 86400000000 ≤ 3067670 := by omega
    omega
  simp only [filetime_to_datetime, datetime1601Plus]
  rw [if_neg hcond]
  rfl

/-- Witness for C6 amended: a small tick value within the provable range
converts successfully. -/
theorem c6_amended_witness : (filetime_to_datetime 1000).toOption.isSome = true :=
  c6_amended.2.2.2.2 1000 (by decide)

/-- **C8.** Any buffer of at least 12 bytes whose prologue carries the tag
bytes `xyz` instead of `fxs` makes the header decoder fail with
`BadMagic` — whatever the other prologue bytes, whatever the incoming
cursor position, and whatever follows the prologue (the conclusion holds
for every continuation of the buffer, so no byte beyond the 12-byte
prologue is ever consumed). -/
theorem c8_bad_magic (bs : Bytes) (p0 : Nat) (hlen : 12 ≤ bs.length)
    (htag : (bs.drop 1).take 3 = ascii "xyz") :
    read_the_header bs p0 = .error .badMagic := by
  have h1 : readN bs 0 12 = .ok (bs.take 12, 0 + 12) := by
    have := readN_eq bs 0 12 (by omega)
    simpa using this
  have htag12 : ((bs.take 12).tail).take 3 = ascii "xyz" := by
    rw [← List.drop_one, List.drop_take, List.take_take]
    simpa using htag
  have hne : ((bs.take 12).tail).take 3 ≠ ascii "fxs" := by
    rw [htag12]; decide
  simp [read_the_header, h1, bind_ok_eq, hne]

/-- Witness for C8: a 12-byte `xyz` prologue followed by arbitrary bytes,
parsed from a nonzero incoming position. -/
theorem c8_witness :
    read_the_header ([0] ++ ascii "xyz" ++ List.replicate 8 0) 5
      = .error .badMagic :=
  c8_bad_magic ([0] ++ ascii "xyz" ++ List.replicate 8 0) 5 (by decide) (by decide)

/-- **C10.** The header decoder's output — the parsed header and the final
cursor position alike — does not depend on the cursor position it is
invoked at: `_read_the_header` begins with `fbio.seek(0)`, so any two
starting positions yield identical results on every buffer. -/
theorem c10_header_position_independent (bs : Bytes) (p q : Nat) :
    read_the_header bs p = read_the_header bs q := rfl

/-- **C2.** The dataset-item decoder consumes bytes in exactly the claimed
order and typing: for every constructed item buffer — a 4-byte
discriminator encoding 0x11, 4 reserved bytes, the 4-int/2-float/2-int
little-endian 32-byte block, 12 reserved bytes, `accumulation_times`
(i32) and `dwell_time` (f32), 4 reserved bytes, the 49-entry i32 `z_axis`
block, 40 reserved bytes, the length-prefixed `condition_file`, a 4-byte
signed sub-record count, that many measurement records, the
length-prefixed `name` and the 316-byte trailing reserved region — placed
after any prefix and before any suffix, the decoder succeeds with exactly
the fields decoded from the corresponding segments and leaves the cursor
at the end of the construction; and when the 4-byte discriminator encodes
any value other than 0x11, it fails with `UnexpectedStructType` carrying
that value. -/
theorem c2_item_layout (pre rest : Bytes) (it : ItemInput) (hwf : it.wf) :
    readWDSDatasetItem (pre ++ (it.bytes ++ rest)) pre.length
      = .ok (it.item, pre.length + it.bytes.length)
    ∧ ∀ disc tail : Bytes, disc.length = 4 → i32le disc ≠ 0x11 →
        readWDSDatasetItem (pre ++ (disc ++ tail)) pre.length
          = .error (.unexpectedItemStruct (i32le disc)) := by
  constructor
  · exact readWDSDatasetItem_append _ pre rest it pre.length rfl rfl hwf
  · intro disc tail hd hne
    have h1 : readN (pre ++ (disc ++ tail)) pre.length 4 = .ok (disc, pre.length + 4) :=
      readN_append _ pre disc tail pre.length 4 rfl rfl hd
    simp [readWDSDatasetItem, h1, bind_ok_eq, hne]

/-- Witness for C2: the concrete one-record item buffer between a 1-byte
prefix and a 2-byte suffix parses to its constructed item. -/
theorem c2_item_layout_witness :
    readWDSDatasetItem (([7] : Bytes) ++ (c2it.bytes ++ [8, 8])) ([7] : Bytes).length
      = .ok (c2it.item, ([7] : Bytes).length + c2it.bytes.length) :=
  (c2_item_layout [7] [8, 8] c2it (by decide)).1

/-- **C7, counterexample.** The decoder does not check the discriminator
before consuming the reserved field and item count.  With a valid type-6
header followed by just the 4-byte discriminator (encoding 12), the claim
requires an `UnexpectedStructType` failure; the code instead unpacks
discriminator + 20 reserved bytes + item count as one 28-byte read and
fails with `struct.error`.  With the full 28 bytes present, the error is
raised only after all 28 are consumed, and the address it carries is 73 —
the offset after the whole block, not the offset 45 at which the
discriminator was read. -/
theorem c7_counterexample :
    CamecaWDSparse (hdrBuf 6 ++ [12, 0, 0, 0]) = .error .structError
    ∧ CamecaWDSparse (hdrBuf 6 ++ ([12, 0, 0, 0] ++ List.replicate 20 0 ++ [0, 0, 0, 0]))
        = .error (.unexpectedWDSStruct 12 73)
    ∧ (hdrBuf 6).length = 45 :=
  ⟨rfl, rfl, rfl⟩

/-- **C7, amended.** When the header's type code is not 6 the parse fails
with `WrongFileType` before reading any post-header byte (the conclusion
holds for every post-header continuation); when the type code is 6, the
decoder reads the discriminator, the 20-byte reserved field and the item
count as a single 28-byte block and only then checks the discriminator,
failing with `UnexpectedStructType` that carries the discriminator value
and the offset after the whole 28-byte block (72 plus the comment
length), not the offset at which the discriminator was read.  Both parts
presuppose a header whose comment decodes as UTF-8: a non-decodable
comment aborts the parse earlier, inside the header decoder, with
`UnicodeDecodeError`. -/
theorem c7_amended (ver4 cLen4 cmt r28 dsc r20 cnt post name : Bytes) (t : Nat)
    (ht : t < 256) (hv : ver4.length = 4) (hc : cLen4.length = 4)
    (hcv : i32le cLen4 = (cmt.length : Int)) (hr : r28.length = 28)
    (hname : value_map t = some name) (hutf : utf8Valid cmt = true)
    (hdsc : dsc.length = 4) (hr20 : r20.length = 20) (hcnt : cnt.length = 4) :
    (t ≠ 6 → ∀ tail : Bytes,
      CamecaWDSparse ([t] ++ (ascii "fxs" ++ (ver4 ++ (cLen4
          ++ (cmt ++ (r28 ++ ([0, 0, 0, 0] ++ tail)))))))
        = .error (.wrongFileType name))
    ∧ (i32le dsc ≠ 11 →
      CamecaWDSparse ([6] ++ (ascii "fxs" ++ (ver4 ++ (cLen4
          ++ (cmt ++ (r28 ++ ([0, 0, 0, 0] ++ (dsc ++ (r20 ++ (cnt ++ post))))))))))
        = .error (.unexpectedWDSStruct (i32le dsc) (72 + cmt.length))) := by
  constructor
  · intro hne tail
    have hh := read_the_header_append
      ([t] ++ (ascii "fxs" ++ (ver4 ++ (cLen4 ++ (cmt ++ (r28 ++ ([0, 0, 0, 0] ++ tail)))))))
      ver4 cLen4 cmt r28 tail name t 0 rfl ht hv hc hcv hr hname hutf
    simp only [CamecaWDSparse]
    rw [hh, bind_ok_eq]
    simp [hne]
  · intro hne
    have hname6 : value_map 6 = some (ascii "WDS results") := rfl
    have hh := read_the_header_append
      ([6] ++ (ascii "fxs" ++ (ver4 ++ (cLen4
          ++ (cmt ++ (r28 ++ ([0, 0, 0, 0] ++ (dsc ++ (r20 ++ (cnt ++ post))))))))))
      ver4 cLen4 cmt r28 (dsc ++ (r20 ++ (cnt ++ post))) (ascii "WDS results") 6 0
      rfl (by omega) hv hc hcv hr hname6 hutf
    have h28 : readN ([6] ++ (ascii "fxs" ++ (ver4 ++ (cLen4
          ++ (cmt ++ (r28 ++ ([0, 0, 0, 0] ++ (dsc ++ (r20 ++ (cnt ++ post))))))))))
        (44 + cmt.length) 28
        = .ok (dsc ++ (r20 ++ cnt), 44 + cmt.length + 28) :=
      readN_append _ ([6] ++ ascii "fxs" ++ ver4 ++ cLen4 ++ cmt ++ r28 ++ [0, 0, 0, 0])
        (dsc ++ (r20 ++ cnt)) post (44 + cmt.length) 28
        (by simp [List.append_assoc])
        (by simp [ascii, hv, hc, hr]; omega)
        (by simp [hdsc, hr20, hcnt])
    have hb4 : (dsc ++ (r20 ++ cnt)).take 4 = dsc := List.take_left' hdsc
    have haddr : 44 + cmt.length + 28 = 72 + cmt.length := by omega
    simp only [CamecaWDSparse]
    rw [hh, bind_ok_eq]
    simp only []
    rw [h28, bind_ok_eq]
    simp [hb4, hne, haddr]

/-- Witness for C7 amended: a type-3 header fails with `WrongFileType`
carrying the name `Calibration setup`. -/
theorem c7_amended_witness :
    CamecaWDSparse ([3] ++ (ascii "fxs" ++ ([1, 0, 0, 0] ++ ([1, 0, 0, 0]
        ++ ([116] ++ (List.replicate 28 0 ++ ([0, 0, 0, 0] ++ [9])))))))
      = .error (.wrongFileType (ascii "Calibration setup")) :=
  (c7_amended [1, 0, 0, 0] [1, 0, 0, 0] [116] (List.replicate 28 0) [12, 0, 0, 0]
    (List.replicate 20 0) [0, 0, 0, 0] [] (ascii "Calibration setup") 3
    (by decide) (by decide) (by decide) (by decide) (by decide) (by decide)
    (by decide) (by decide) (by decide) (by decide)).1 (by decide) [9]

end Cameca
